import Mathlib

/-!
Shallow embedding of the semantic-version parser/comparator repository
(`src/utils.py`, `src/task_2.py`, `src/main.py`).

The repository holds two drafts of the same `Version` class:
* `task_2.py` — self-contained: `VersionChecker.__set__` validates,
  `Version.convert_version` normalizes, `Version.__eq__` / `Version.__lt__` compare;
* `utils.py` + `main.py` — `VersionDescriptor.is_valid` validates (raising on failure),
  `VersionDescriptor.create_comparable_version` normalizes (no padding),
  `main.Version.get_comparable_version` converts comparison operands.

Strings are modelled as `List Char` pipelines (Python `str` is a char sequence; all
inputs relevant here are ASCII and newline-free). Machine integers do not arise:
Python ints are unbounded, tokens hold `Nat` values parsed from digit runs.
-/

/-- Token of a comparable version: Python `int(x) if x.isdigit() else x.lower()`
produces either an int or a (lowercased) string. -/
inductive Token where
  | int (n : Nat)
  | str (s : String)
deriving DecidableEq, Repr

def Token.isStr : Token → Bool
  | .str _ => true
  | _ => false

def Token.isInt : Token → Bool
  | .int _ => true
  | _ => false

/-! ### Regex engine (Brzozowski derivatives)

`re.fullmatch(pattern, s)` succeeds iff `s` is in the language of `pattern`;
membership is decided by iterated derivatives. -/

/-- Regular expressions over characters; `cls p` is a character class. -/
inductive Regex where
  | emp
  | eps
  | cls (p : Char → Bool)
  | cat (r1 r2 : Regex)
  | alt (r1 r2 : Regex)
  | star (r : Regex)

def Regex.nullable : Regex → Bool
  | .emp => false
  | .eps => true
  | .cls _ => false
  | .cat r1 r2 => r1.nullable && r2.nullable
  | .alt r1 r2 => r1.nullable || r2.nullable
  | .star _ => true

/-- Smart concatenation (keeps derivatives small). -/
def Regex.catS : Regex → Regex → Regex
  | .emp, _ => .emp
  | .eps, r => r
  | r1, r2 =>
    match r2 with
    | .emp => .emp
    | .eps => r1
    | _ => .cat r1 r2

/-- Smart alternation (keeps derivatives small). -/
def Regex.altS : Regex → Regex → Regex
  | .emp, r => r
  | r1, r2 =>
    match r2 with
    | .emp => r1
    | _ => .alt r1 r2

def Regex.deriv (c : Char) : Regex → Regex
  | .emp => .emp
  | .eps => .emp
  | .cls p => if p c then .eps else .emp
  | .cat r1 r2 =>
    if r1.nullable then Regex.altS (Regex.catS (r1.deriv c) r2) (r2.deriv c)
    else Regex.catS (r1.deriv c) r2
  | .alt r1 r2 => Regex.altS (r1.deriv c) (r2.deriv c)
  | .star r => Regex.catS (r.deriv c) (.star r)

/-- Full-match: `s` is in the language of `r` (Python `re.fullmatch(r, s)` succeeds). -/
def Regex.rmatch (r : Regex) (s : String) : Bool :=
  (s.data.foldl (fun r c => r.deriv c) r).nullable

def rchr (c : Char) : Regex := .cls (· = c)

def rlit (s : String) : Regex := s.data.foldr (fun c r => .cat (rchr c) r) .eps

def ropt (r : Regex) : Regex := .alt r .eps

def rplus (r : Regex) : Regex := .cat r (.star r)

/-- `\d` (inputs are ASCII). -/
def rdigit : Regex := .cls Char.isDigit

/-- `\w` (inputs are ASCII). -/
def rword : Regex := .cls (fun c => c.isAlphanum || c = '_')

/-- `[.-]` -/
def rsep : Regex := .cls (fun c => c = '.' || c = '-')

/-- `(\d+\.){,2}\d+` — one to three dot-separated digit groups
(`{,2}` is two optional copies, same language). -/
def rnumCore : Regex :=
  .cat (ropt (.cat (rplus rdigit) (rchr '.')))
    (.cat (ropt (.cat (rplus rdigit) (rchr '.'))) (rplus rdigit))

/-- `(-?(<core words>)[.-]?)*` pre-release groups, parameterized by the word alternative
(`utils.py` allows `\d+|a|b|alpha|beta|rc`; `task_2.py` additionally allows `sr`). -/
def rpreGroups (core : Regex) : Regex :=
  .star (.cat (ropt (rchr '-')) (.cat core (ropt rsep)))

/-- `(\+(\w+[.-]?)+)?` optional build metadata. -/
def rmeta : Regex :=
  ropt (.cat (rchr '+') (rplus (.cat (rplus rword) (ropt rsep))))

def rcoreWordsUtils : Regex :=
  .alt (rplus rdigit)
    (.alt (rlit "a") (.alt (rlit "b") (.alt (rlit "alpha") (.alt (rlit "beta") (rlit "rc")))))

def rcoreWordsTask2 : Regex :=
  .alt (rplus rdigit)
    (.alt (rlit "a") (.alt (rlit "b")
      (.alt (rlit "alpha") (.alt (rlit "beta") (.alt (rlit "rc") (rlit "sr"))))))

/-! ### String-pipeline helpers shared by both normalizers -/

/-- Tests whether `pat` is an initial segment of `s`. -/
def leadsWith : List Char → List Char → Bool
  | [], _ => true
  | _ :: _, [] => false
  | p :: ps, c :: cs => p = c && leadsWith ps cs

/-- Fuelled worker for `pyReplace`; fuel bounds the number of consumed characters. -/
def pyReplaceF (pat rep : List Char) : Nat → List Char → List Char
  | 0, s => s
  | _ + 1, [] => []
  | n + 1, c :: cs =>
    if !pat.isEmpty && leadsWith pat (c :: cs) then
      rep ++ pyReplaceF pat rep n (cs.drop (pat.length - 1))
    else
      c :: pyReplaceF pat rep n cs

/-- Python `s.replace(pat, rep)` (also `re.sub` with a literal pattern): leftmost,
non-overlapping, scanning resumes after the replaced occurrence. -/
def pyReplace (pat rep s : List Char) : List Char :=
  pyReplaceF pat rep s.length s

/-- `re.sub(r'\+.+', '', s)` in `task_2.convert_version`: removes the suffix starting
at the first `+` that has at least one following character (inputs have no newline). -/
def dropPlusTail : List Char → List Char
  | [] => []
  | [c] => [c]
  | c :: cs => if c = '+' then [] else c :: dropPlusTail cs

/-- `version[:version.find('+')] if '+' in version else version` in
`utils.create_comparable_version`: everything before the first `+`. -/
def takeUntilPlus : List Char → List Char
  | [] => []
  | c :: cs => if c = '+' then [] else c :: takeUntilPlus cs

/-- Fuelled worker for `splitRuns`. -/
def splitRunsF : Nat → List Char → List (List Char)
  | 0, _ => [[]]
  | _ + 1, [] => [[]]
  | n + 1, c :: cs =>
    if c = '.' then
      [] :: splitRunsF n (cs.dropWhile (· = '.'))
    else
      match splitRunsF n cs with
      | [] => [[c]]
      | t :: ts => (c :: t) :: ts

/-- `re.split(r'\.+', s)` in `task_2.convert_version`: split on maximal runs of dots. -/
def splitRuns (s : List Char) : List (List Char) :=
  splitRunsF s.length s

/-- `s.split('.')` in `utils.create_comparable_version`: split on every single dot. -/
def splitAllDot : List Char → List (List Char)
  | [] => [[]]
  | c :: cs =>
    if c = '.' then
      [] :: splitAllDot cs
    else
      match splitAllDot cs with
      | [] => [[c]]
      | t :: ts => (c :: t) :: ts

/-- Python `x.isdigit()`: nonempty and all digits (ASCII model). -/
def isDigits (l : List Char) : Bool := !l.isEmpty && l.all Char.isDigit

/-- Decimal value of a digit run (Python `int(x)`). -/
def digitsToNat (l : List Char) : Nat :=
  l.foldl (fun n c => 10 * n + (c.toNat - '0'.toNat)) 0

/-- The typing `lambda x: int(x) if x.isdigit() else x.lower()` shared by both drafts. -/
def typeToken (l : List Char) : Token :=
  if isDigits l then .int (digitsToNat l) else .str (String.mk (l.map Char.toLower))

/-- Python `<` on strings: lexicographic by code point, a strict prefix is lesser. -/
def chLtB : List Char → List Char → Bool
  | [], [] => false
  | [], _ :: _ => true
  | _ :: _, [] => false
  | c :: cs, d :: ds => if c = d then chLtB cs ds else decide (c < d)

/-- Python `s < t` for strings. -/
def pyStrLt (s t : String) : Bool := chLtB s.data t.data

/-! ### The comparison loop (`Version.__lt__`, identical in both drafts;
`task_2.py` writes the bound `3` literally, `main.py` calls it `MIN_VERSION_LENGTH`). -/

/-- Walk of `enumerate(zip(a, b))` in `Version.__lt__`: `none` means the zip was
exhausted with all positions equal; `some r` is an early return.  At a differing
position, same-typed tokens compare naturally; mixed-typed tokens (Python raises
`TypeError` on `int < str`) take the index tie-break `isinstance` branch. -/
def ltTokAux : Nat → List Token → List Token → Option Bool
  | _, [], _ => none
  | _, _ :: _, [] => none
  | i, x :: xs, y :: ys =>
    if x = y then ltTokAux (i + 1) xs ys
    else
      match x, y with
      | .int m, .int n => some (decide (m < n))
      | .str s, .str t => some (pyStrLt s t)
      | .int _, .str _ => some (if i ≤ 3 then false else true)
      | .str _, .int _ => some (if i ≤ 3 then true else false)

/-- `Version.__lt__` on the two comparable forms: the loop, then the length
tie-break `if 3 in (len(a), len(b)): return len(a) > 3` / `return len(a) < len(b)`. -/
def ltList (a b : List Token) : Bool :=
  match ltTokAux 0 a b with
  | some r => r
  | none =>
    if a.length = 3 ∨ b.length = 3 then decide (3 < a.length)
    else decide (a.length < b.length)

/-! ### `task_2.py` -/

namespace Task2

/-- Python error kinds surfaced by the drafts. -/
inductive PyErr where
  | valueError
  | typeError
deriving DecidableEq, Repr

/-- The fullmatch pattern in `VersionChecker.__set__`:
`(\d+\.){,2}\d+(-?(\d+|a|b|alpha|beta|rc|sr)[.-]?)*(\+(\w+[.-]?)+)?`. -/
def PATTERN : Regex := .cat rnumCore (.cat (rpreGroups rcoreWordsTask2) rmeta)

/-- `VersionChecker.__set__`: stores the value when it fullmatches the pattern and
differs from the single sentinel `'0.0.0'`; raises `ValueError` otherwise. -/
def versionCheckerSet (v : String) : Except PyErr String :=
  if PATTERN.rmatch v = true ∧ v ≠ "0.0.0" then .ok v else .error .valueError

/-- `Version.convert_version`: the `OrderedDict` of `re.sub` rewrites
`alpha→a, beta→b, a→.a, b→.b, \-→., \+.+→` applied in order, then
`re.split(r'\.+')`, padding with `'0'` to length 3, then token typing. -/
def convert_version (v : String) : List Token :=
  let s1 := pyReplace "alpha".data "a".data v.data
  let s2 := pyReplace "beta".data "b".data s1
  let s3 := pyReplace "a".data ".a".data s2
  let s4 := pyReplace "b".data ".b".data s3
  let s5 := pyReplace "-".data ".".data s4
  let s6 := dropPlusTail s5
  let toks := splitRuns s6
  let padded := toks ++ List.replicate (3 - toks.length) ['0']
  padded.map typeToken

/-- Comparison operand at the public boundary: a constructed `Version` (carrying its
comparable form), a raw string, or anything else. -/
inductive Operand where
  | version (comp : List Token)
  | rawStr (s : String)
  | other
deriving Repr

/-- `Version.__eq__`: `is_version(other)` raises `TypeError` unless `other` is a
`Version`; then list equality of the comparable forms. -/
def version_eq (self : List Token) : Operand → Except PyErr Bool
  | .version c => .ok (decide (self = c))
  | _ => .error .typeError

/-- `Version.__lt__`: `is_version(other)` raises `TypeError` unless `other` is a
`Version`; then the comparison loop. -/
def version_lt (self : List Token) : Operand → Except PyErr Bool
  | .version c => .ok (ltList self c)
  | _ => .error .typeError

/-- `Version(s) < Version(t)` for two successfully constructed versions. -/
def ltStr (s t : String) : Bool :=
  ltList (convert_version s) (convert_version t)

end Task2

/-! ### `utils.py` and `main.py` -/

namespace UtilsM

open Task2 (PyErr Operand)

/-- `VERSION_PATTERN` in `utils.py`:
`(\d+\.){,2}\d+(-?(\d+|a|b|alpha|beta|rc)[.-]?)*(\+(\w+[.-]?)+)?`. -/
def VERSION_PATTERN : Regex := .cat rnumCore (.cat (rpreGroups rcoreWordsUtils) rmeta)

def NOT_IMPLEMENTED_INVALID_VERSIONS : List String := ["0.0.0", "0.0", "0"]

/-- `VersionDescriptor.is_valid`: returns `True` on a fullmatch that is not a listed
sentinel, otherwise raises `ValueError` (it never returns `False`). -/
def is_valid (v : String) : Except PyErr Bool :=
  if VERSION_PATTERN.rmatch v = true ∧ v ∉ NOT_IMPLEMENTED_INVALID_VERSIONS then .ok true
  else .error .valueError

/-- `VersionDescriptor.create_comparable_version`: truncate at the first `+`, apply the
`OrderedDict` of `str.replace` rewrites `alpha→a, beta→b, a→.a, b→.b, -→., ..→.`
in order, split on `'.'`, then token typing.  (No padding to length 3.) -/
def create_comparable_version (v : String) : List Token :=
  let s0 := takeUntilPlus v.data
  let s1 := pyReplace "alpha".data "a".data s0
  let s2 := pyReplace "beta".data "b".data s1
  let s3 := pyReplace "a".data ".a".data s2
  let s4 := pyReplace "b".data ".b".data s3
  let s5 := pyReplace "-".data ".".data s4
  let s6 := pyReplace "..".data ".".data s5
  (splitAllDot s6).map typeToken

/-- The string with everything from the first `+` on removed. -/
def stripMetadata (v : String) : String := String.mk (takeUntilPlus v.data)

/-- Modelled from the spec: `main.py` imports `MIN_VERSION_LENGTH` from `utils`, which
does not define it; spec §9 identifies the bound as 3. -/
def MIN_VERSION_LENGTH : Nat := 3

/-- `main.Version.get_comparable_version` (its `is_valid` / `create_comparable_version`
imports are modelled from the spec as the `VersionDescriptor` static methods, which
`utils.py` does not export at module level): a `Version` yields its stored comparable
form; a string is validated (`is_valid` raising `ValueError` propagates) and
converted; anything else raises `TypeError`. -/
def get_comparable_version : Operand → Except PyErr (List Token)
  | .version c => .ok c
  | .rawStr s =>
    match is_valid s with
    | .ok b => if b then .ok (create_comparable_version s) else .error .typeError
    | .error e => .error e
  | .other => .error .typeError

/-- `main.Version.__eq__`. -/
def version_eq (self : List Token) (o : Operand) : Except PyErr Bool :=
  match get_comparable_version o with
  | .ok c => .ok (decide (self = c))
  | .error e => .error e

/-- `main.Version.__lt__` (the loop and tie-breaks are `ltList`, with
`MIN_VERSION_LENGTH = 3`). -/
def version_lt (self : List Token) (o : Operand) : Except PyErr Bool :=
  match get_comparable_version o with
  | .ok c => .ok (ltList self c)
  | .error e => .error e

end UtilsM

/-! ### General lemmas about the comparison loop -/

/-- Unequal naturals compare in opposite directions (the flipped strict order is the
negation). -/
theorem decideLtFlipNat {m n : Nat} (h : m ≠ n) : decide (n < m) = !decide (m < n) := by
  by_cases h1 : m < n
  · rw [decide_eq_true h1, decide_eq_false (Nat.lt_asymm h1)]
    rfl
  · have h2 : n < m := Nat.lt_of_le_of_ne (Nat.le_of_not_lt h1) fun e => h e.symm
    rw [decide_eq_true h2, decide_eq_false h1]
    rfl

/-- Unequal characters compare in opposite directions. -/
theorem decideLtFlipChar {c d : Char} (h : c ≠ d) : decide (d < c) = !decide (c < d) := by
  by_cases h1 : c < d
  · rw [decide_eq_true h1, decide_eq_false (lt_asymm h1)]
    rfl
  · have h2 : d < c := lt_of_le_of_ne (le_of_not_lt h1) fun e => h e.symm
    rw [decide_eq_true h2, decide_eq_false h1]
    rfl

theorem chLtB_self : ∀ l : List Char, chLtB l l = false := by
  intro l
  induction l with
  | nil => rfl
  | cons c cs ih => simp [chLtB, ih]

/-- Lexicographically, unequal char lists compare in opposite directions. -/
theorem chLtB_flip : ∀ {l l' : List Char}, l ≠ l' → chLtB l' l = !chLtB l l' := by
  intro l
  induction l with
  | nil =>
    intro l' h
    cases l' with
    | nil => exact absurd rfl h
    | cons c cs => simp [chLtB]
  | cons c cs ih =>
    intro l' h
    cases l' with
    | nil => simp [chLtB]
    | cons d ds =>
      by_cases hcd : c = d
      · subst hcd
        have hne : cs ≠ ds := fun he => h (by rw [he])
        simp [chLtB, ih hne]
      · simp [chLtB, hcd, Ne.symm hcd, decideLtFlipChar hcd]

theorem pyStrLt_self (s : String) : pyStrLt s s = false := chLtB_self s.data

/-- Unequal strings compare in opposite directions under Python `<`. -/
theorem pyStrLt_flip {s t : String} (h : s ≠ t) : pyStrLt t s = !pyStrLt s t := by
  apply chLtB_flip
  intro he
  apply h
  cases s
  cases t
  exact congrArg String.mk he

/-- Swapping the operands of the loop flips an early return and certifies the lists
differ. -/
theorem ltTokAux_some_rev : ∀ (xs : List Token) (i : Nat) (ys : List Token) (r : Bool),
    ltTokAux i xs ys = some r → ltTokAux i ys xs = some (!r) ∧ xs ≠ ys := by
  intro xs
  induction xs with
  | nil => intro i ys r h; simp [ltTokAux] at h
  | cons x xs ih =>
    intro i ys r h
    cases ys with
    | nil => simp [ltTokAux] at h
    | cons y ys =>
      by_cases hxy : x = y
      · subst hxy
        simp only [ltTokAux, if_pos rfl] at h ⊢
        rcases ih (i + 1) ys r h with ⟨h1, h2⟩
        exact ⟨h1, fun he => h2 (by injection he)⟩
      · rcases x with m | s <;> rcases y with n | t
        · have hmn : m ≠ n := fun he => hxy (by rw [he])
          simp only [ltTokAux, if_neg hxy, if_neg (Ne.symm hxy), Option.some.injEq] at h ⊢
          refine ⟨?_, fun he => hxy (by injection he)⟩
          rw [← h, decideLtFlipNat hmn]
        · simp only [ltTokAux, if_neg hxy, if_neg (Ne.symm hxy), Option.some.injEq] at h ⊢
          refine ⟨?_, fun he => hxy (by injection he)⟩
          rw [← h]
          by_cases hi : i ≤ 3 <;> simp [hi]
        · simp only [ltTokAux, if_neg hxy, if_neg (Ne.symm hxy), Option.some.injEq] at h ⊢
          refine ⟨?_, fun he => hxy (by injection he)⟩
          rw [← h]
          by_cases hi : i ≤ 3 <;> simp [hi]
        · have hst : s ≠ t := fun he => hxy (by rw [he])
          simp only [ltTokAux, if_neg hxy, if_neg (Ne.symm hxy), Option.some.injEq] at h ⊢
          refine ⟨?_, fun he => hxy (by injection he)⟩
          rw [← h, pyStrLt_flip hst]

/-- A zip-exhausting walk also exhausts with the operands swapped. -/
theorem ltTokAux_none_rev {i : Nat} {xs ys : List Token} (h : ltTokAux i xs ys = none) :
    ltTokAux i ys xs = none := by
  cases h' : ltTokAux i ys xs with
  | none => rfl
  | some r =>
    rcases ltTokAux_some_rev ys i xs r h' with ⟨h1, _⟩
    rw [h] at h1
    cases h1

/-- A zip-exhausting walk means one list is an initial segment of the other. -/
theorem ltTokAux_none_take : ∀ (xs : List Token) (i : Nat) (ys : List Token),
    ltTokAux i xs ys = none → xs = ys.take xs.length ∨ ys = xs.take ys.length := by
  intro xs
  induction xs with
  | nil => intro i ys _; left; rfl
  | cons x xs ih =>
    intro i ys h
    cases ys with
    | nil => right; rfl
    | cons y ys =>
      by_cases hxy : x = y
      · subst hxy
        simp only [ltTokAux, if_pos rfl] at h
        rcases ih (i + 1) ys h with h1 | h1
        · left
          rw [List.length_cons, List.take_succ_cons]
          exact congrArg _ h1
        · right
          rw [List.length_cons, List.take_succ_cons]
          exact congrArg _ h1
      · exfalso
        rcases x with m | s <;> rcases y with n | t <;>
          simp [ltTokAux, hxy] at h

/-- An initial segment makes the walk exhaust the zip. -/
theorem ltTokAux_of_take : ∀ (xs : List Token) (i : Nat) (ys : List Token),
    xs = ys.take xs.length → ltTokAux i xs ys = none := by
  intro xs
  induction xs with
  | nil => intro i ys _; rfl
  | cons x xs ih =>
    intro i ys h
    cases ys with
    | nil => simp at h
    | cons y ys =>
      rw [List.length_cons, List.take_succ_cons] at h
      injection h with h1 h2
      subst h1
      simp only [ltTokAux, if_pos rfl]
      exact ih (i + 1) ys h2

/-- When every position before `i` agrees and position `i` holds tokens of different
types, the loop returns the index tie-break for position `i`. -/
theorem ltTokAux_mixed : ∀ (i : Nat) (xs ys : List Token) (k : Nat)
    (hx : i < xs.length) (hy : i < ys.length),
    xs.take i = ys.take i →
    ((xs.get ⟨i, hx⟩).isInt = true ∧ (ys.get ⟨i, hy⟩).isStr = true ∨
      (xs.get ⟨i, hx⟩).isStr = true ∧ (ys.get ⟨i, hy⟩).isInt = true) →
    ltTokAux k xs ys =
      some (if k + i ≤ 3 then (xs.get ⟨i, hx⟩).isStr else (xs.get ⟨i, hx⟩).isInt) := by
  intro i
  induction i with
  | zero =>
    intro xs ys k hx hy _ hmix
    cases xs with
    | nil => simp at hx
    | cons x xs =>
      cases ys with
      | nil => simp at hy
      | cons y ys =>
        simp only [List.get] at hmix ⊢
        rcases hmix with ⟨h1, h2⟩ | ⟨h1, h2⟩
        · rcases x with m | s
          · rcases y with n | t
            · simp [Token.isStr] at h2
            · simp only [ltTokAux, if_neg (fun he => by simp at he : ¬Token.int m = Token.str t)]
              by_cases hk : k + 0 ≤ 3 <;>
                simp_all [Token.isStr, Token.isInt, Nat.add_zero]
          · simp [Token.isInt] at h1
        · rcases x with m | s
          · simp [Token.isStr] at h1
          · rcases y with n | t
            · simp only [ltTokAux, if_neg (fun he => by simp at he : ¬Token.str s = Token.int n)]
              by_cases hk : k + 0 ≤ 3 <;>
                simp_all [Token.isStr, Token.isInt, Nat.add_zero]
            · simp [Token.isInt] at h2
  | succ i ih =>
    intro xs ys k hx hy hpre hmix
    cases xs with
    | nil => simp at hx
    | cons x xs =>
      cases ys with
      | nil => simp at hy
      | cons y ys =>
        rw [List.take_succ_cons, List.take_succ_cons] at hpre
        injection hpre with h1 h2
        subst h1
        simp only [List.get_cons_succ] at hmix ⊢
        have hx' : i < xs.length := by simpa using hx
        have hy' : i < ys.length := by simpa using hy
        have hrec := ih xs ys (k + 1) hx' hy' h2 hmix
        have harith : k + 1 + i = k + (i + 1) := by omega
        simp [ltTokAux, hrec, harith]

/-- With an exhausted zip, `__lt__` returns just the length tie-break. -/
theorem ltList_of_none {a b : List Token} (h : ltTokAux 0 a b = none) :
    ltList a b =
      if a.length = 3 ∨ b.length = 3 then decide (3 < a.length)
      else decide (a.length < b.length) := by
  simp [ltList, h]

/-- Trichotomy of `__lt__` / list equality for comparable forms of length at least 3. -/
theorem ltList_trichotomy (a b : List Token) (ha : 3 ≤ a.length) (hb : 3 ≤ b.length) :
    (ltList a b = true ∧ a ≠ b ∧ ltList b a = false) ∨
    (ltList a b = false ∧ a = b ∧ ltList b a = false) ∨
    (ltList a b = false ∧ a ≠ b ∧ ltList b a = true) := by
  cases h : ltTokAux 0 a b with
  | some r =>
    rcases ltTokAux_some_rev a 0 b r h with ⟨h1, h2⟩
    have e1 : ltList a b = r := by simp [ltList, h]
    have e2 : ltList b a = !r := by simp [ltList, h1]
    cases r
    · right; right; exact ⟨e1, h2, e2⟩
    · left; exact ⟨e1, h2, e2⟩
  | none =>
    have h' : ltTokAux 0 b a = none := ltTokAux_none_rev h
    rw [ltList_of_none h, ltList_of_none h']
    by_cases hl : a.length = b.length
    · have hab : a = b := by
        rcases ltTokAux_none_take a 0 b h with h1 | h1
        · rw [h1, hl, List.take_length]
        · rw [h1, ← hl, List.take_length]
      right; left
      subst hab
      by_cases h3 : a.length = 3 <;> simp [h3]
    · have hab : a ≠ b := fun he => hl (by rw [he])
      by_cases ha3 : a.length = 3
      · have hbgt : 3 < b.length := by omega
        right; right
        rw [if_pos (Or.inl ha3), if_pos (Or.inr ha3), ha3]
        exact ⟨by simp, hab, decide_eq_true hbgt⟩
      · by_cases hb3 : b.length = 3
        · have hagt : 3 < a.length := by omega
          left
          rw [if_pos (Or.inr hb3), if_pos (Or.inl hb3), hb3]
          exact ⟨decide_eq_true hagt, hab, by simp⟩
        · have hcond : ¬(a.length = 3 ∨ b.length = 3) := by tauto
          have hcond' : ¬(b.length = 3 ∨ a.length = 3) := by tauto
          rw [if_neg hcond, if_neg hcond']
          by_cases hlt : a.length < b.length
          · left
            exact ⟨decide_eq_true hlt, hab, decide_eq_false (by omega)⟩
          · right; right
            exact ⟨decide_eq_false hlt, hab, decide_eq_true (by omega)⟩

/-- `task_2.convert_version` pads with `'0'` tokens, so its output always has at
least 3 tokens. -/
theorem convert_version_length (s : String) : 3 ≤ (Task2.convert_version s).length := by
  unfold Task2.convert_version
  simp only [List.length_map, List.length_append, List.length_replicate]
  omega

/-- Truncation at the first `+` is idempotent. -/
theorem takeUntilPlus_idem : ∀ l : List Char, takeUntilPlus (takeUntilPlus l) = takeUntilPlus l := by
  intro l
  induction l with
  | nil => rfl
  | cons c cs ih =>
    by_cases hc : c = '+'
    · simp [takeUntilPlus, hc]
    · simp [takeUntilPlus, hc, ih]

/-- `utils.is_valid` either returns `True` or raises `ValueError`. -/
theorem is_valid_cases (s : String) :
    UtilsM.is_valid s = .ok true ∨ UtilsM.is_valid s = .error .valueError := by
  unfold UtilsM.is_valid
  by_cases hc : UtilsM.VERSION_PATTERN.rmatch s = true ∧ s ∉ UtilsM.NOT_IMPLEMENTED_INVALID_VERSIONS
  · left; rw [if_pos hc]
  · right; rw [if_neg hc]

/-! ### Claims -/

/-- Claim C1: for every pair of successfully constructed `Version` values (task_2's
`VersionChecker.__set__` accepted both strings), exactly one of `a < b`, `a == b`
(`__eq__` is list equality of the comparable forms), `a > b` (that is, `b < a`)
holds. -/
theorem claim1_trichotomy (s t : String)
    (_hs : Task2.versionCheckerSet s = .ok s) (_ht : Task2.versionCheckerSet t = .ok t) :
    (Task2.ltStr s t = true ∧ Task2.convert_version s ≠ Task2.convert_version t ∧
        Task2.ltStr t s = false) ∨
    (Task2.ltStr s t = false ∧ Task2.convert_version s = Task2.convert_version t ∧
        Task2.ltStr t s = false) ∨
    (Task2.ltStr s t = false ∧ Task2.convert_version s ≠ Task2.convert_version t ∧
        Task2.ltStr t s = true) :=
  ltList_trichotomy _ _ (convert_version_length s) (convert_version_length t)

/-- Witness for C1 at the constructed versions `"1.0.0"` and `"2.0.0"`. -/
theorem claim1_witness :
    Task2.versionCheckerSet "1.0.0" = .ok "1.0.0" ∧
    Task2.versionCheckerSet "2.0.0" = .ok "2.0.0" ∧
    ((Task2.ltStr "1.0.0" "2.0.0" = true ∧
        Task2.convert_version "1.0.0" ≠ Task2.convert_version "2.0.0" ∧
        Task2.ltStr "2.0.0" "1.0.0" = false) ∨
      (Task2.ltStr "1.0.0" "2.0.0" = false ∧
        Task2.convert_version "1.0.0" = Task2.convert_version "2.0.0" ∧
        Task2.ltStr "2.0.0" "1.0.0" = false) ∨
      (Task2.ltStr "1.0.0" "2.0.0" = false ∧
        Task2.convert_version "1.0.0" ≠ Task2.convert_version "2.0.0" ∧
        Task2.ltStr "2.0.0" "1.0.0" = true)) :=
  ⟨rfl, rfl, claim1_trichotomy "1.0.0" "2.0.0" rfl rfl⟩

/-- Counterexample to claim C2 as stated: in `task_2.py` the sentinel list is only
`'0.0.0'`, so constructing `Version("0.0")` succeeds instead of failing. -/
theorem claim2_counterexample : Task2.versionCheckerSet "0.0" = .ok "0.0" := rfl

/-- Claim C2 (amended): the `utils.py` validator rejects all three sentinels
`"0.0.0"`, `"0.0"`, `"0"` and every non-matching string (including `""`, `"abc"`,
`"1.2.3.4.5.6.7.8.9"`); the `task_2.py` validator rejects `"0.0.0"` and every
non-matching string, but accepts the sentinels `"0.0"` and `"0"`. -/
theorem claim2_validation :
    (∀ s : String, UtilsM.VERSION_PATTERN.rmatch s = false →
        UtilsM.is_valid s = .error .valueError) ∧
    (∀ s : String, Task2.PATTERN.rmatch s = false →
        Task2.versionCheckerSet s = .error .valueError) ∧
    UtilsM.is_valid "0.0.0" = .error .valueError ∧
    UtilsM.is_valid "0.0" = .error .valueError ∧
    UtilsM.is_valid "0" = .error .valueError ∧
    UtilsM.is_valid "" = .error .valueError ∧
    UtilsM.is_valid "abc" = .error .valueError ∧
    UtilsM.is_valid "1.2.3.4.5.6.7.8.9" = .error .valueError ∧
    Task2.versionCheckerSet "0.0.0" = .error .valueError ∧
    Task2.versionCheckerSet "" = .error .valueError ∧
    Task2.versionCheckerSet "abc" = .error .valueError ∧
    Task2.versionCheckerSet "1.2.3.4.5.6.7.8.9" = .error .valueError ∧
    Task2.versionCheckerSet "0.0" = .ok "0.0" ∧
    Task2.versionCheckerSet "0" = .ok "0" := by
  refine ⟨?_, ?_, rfl, rfl, rfl, rfl, rfl, rfl, rfl, rfl, rfl, rfl, rfl, rfl⟩
  · intro s h
    simp [UtilsM.is_valid, h]
  · intro s h
    simp [Task2.versionCheckerSet, h]

/-- Witness for C2 (amended) at the non-matching string `"hello"`. -/
theorem claim2_witness :
    UtilsM.VERSION_PATTERN.rmatch "hello" = false ∧
    UtilsM.is_valid "hello" = .error .valueError :=
  ⟨rfl, claim2_validation.1 "hello" rfl⟩

/-- Claim C3: at the first position `i` where the tokens differ in type (one int, one
string), the comparator's result is the type tie-break: for `i ≤ 3` the operand whose
token is a string is the lesser; for `i > 3` the operand whose token is an int is the
lesser. -/
theorem claim3_type_tiebreak (a b : List Token) (i : Nat) (ha : i < a.length)
    (hb : i < b.length) (hpre : a.take i = b.take i)
    (hmix : (a.get ⟨i, ha⟩).isInt = true ∧ (b.get ⟨i, hb⟩).isStr = true ∨
      (a.get ⟨i, ha⟩).isStr = true ∧ (b.get ⟨i, hb⟩).isInt = true) :
    ltList a b = if i ≤ 3 then (a.get ⟨i, ha⟩).isStr else (a.get ⟨i, ha⟩).isInt := by
  have h := ltTokAux_mixed i a b 0 ha hb hpre hmix
  rw [Nat.zero_add] at h
  simp [ltList, h]

/-- Witness for C3: a string token against an int token at position 1. -/
theorem claim3_witness :
    ltList [Token.int 1, Token.str "a"] [Token.int 1, Token.int 2] = true := by
  have h := claim3_type_tiebreak [Token.int 1, Token.str "a"] [Token.int 1, Token.int 2]
    1 (by decide) (by decide) rfl (Or.inr ⟨rfl, rfl⟩)
  simpa using h

/-- Claim C4: when one comparable form is a strict prefix of the other (lengths at
least 3, as `task_2.convert_version` guarantees): if either length is exactly 3 the
longer form is the lesser version, otherwise the shorter form is the lesser version;
in particular `Version("1.0.0-rc.1") < Version("1.0.0")` and
`Version("1.0.0-alpha") < Version("1.0.0-alpha.1")`. -/
theorem claim4_prefix_tiebreak :
    (∀ a b : List Token, 3 ≤ a.length → 3 ≤ b.length → a = b.take a.length →
      a.length < b.length →
      ((a.length = 3 ∨ b.length = 3) → ltList b a = true ∧ ltList a b = false) ∧
      (¬(a.length = 3 ∨ b.length = 3) → ltList a b = true ∧ ltList b a = false)) ∧
    Task2.ltStr "1.0.0-rc.1" "1.0.0" = true ∧
    Task2.ltStr "1.0.0" "1.0.0-rc.1" = false ∧
    Task2.ltStr "1.0.0-alpha" "1.0.0-alpha.1" = true ∧
    Task2.ltStr "1.0.0-alpha.1" "1.0.0-alpha" = false := by
  refine ⟨?_, rfl, rfl, rfl, rfl⟩
  intro a b ha hb hpre hlen
  have e1 := ltList_of_none (ltTokAux_of_take a 0 b hpre)
  have e2 := ltList_of_none (ltTokAux_none_rev (ltTokAux_of_take a 0 b hpre))
  constructor
  · intro h3
    have ha3 : a.length = 3 := by omega
    constructor
    · rw [e2, if_pos (Or.inr ha3)]
      exact decide_eq_true (by omega)
    · rw [e1, if_pos (Or.inl ha3)]
      exact decide_eq_false (by omega)
  · intro h3
    constructor
    · rw [e1, if_neg (by tauto)]
      exact decide_eq_true hlen
    · rw [e2, if_neg (by tauto)]
      exact decide_eq_false (by omega)

/-- Witness for C4 at `[1, 0, 0]` as a strict prefix of `[1, 0, 0, "rc"]`. -/
theorem claim4_witness :
    ltList [Token.int 1, Token.int 0, Token.int 0, Token.str "rc"]
        [Token.int 1, Token.int 0, Token.int 0] = true ∧
    ltList [Token.int 1, Token.int 0, Token.int 0]
        [Token.int 1, Token.int 0, Token.int 0, Token.str "rc"] = false :=
  (claim4_prefix_tiebreak.1 [Token.int 1, Token.int 0, Token.int 0]
    [Token.int 1, Token.int 0, Token.int 0, Token.str "rc"]
    (by decide) (by decide) rfl (by decide)).1 (Or.inl rfl)

/-- Counterexample to claim C5 as stated: `utils.create_comparable_version` performs
no padding, so `"1.10"` normalizes to the two-token sequence `[1, 10]`, not to a
sequence of at least 3 tokens. -/
theorem claim5_counterexample :
    UtilsM.create_comparable_version "1.10" = [Token.int 1, Token.int 10] ∧
    (UtilsM.create_comparable_version "1.10").length = 2 :=
  ⟨rfl, rfl⟩

/-- Claim C5 (amended): padding with integer-0 tokens up to length 3 happens in
`task_2.convert_version` (every output has at least 3 tokens, `"1.10"` normalizes to
`[1, 10, 0]`, and `Version("1.10") < Version("1.10.1")` holds there), while
`utils.create_comparable_version` leaves `"1.10"` as the unpadded `[1, 10]`. -/
theorem claim5_padding :
    (∀ s : String, 3 ≤ (Task2.convert_version s).length) ∧
    Task2.convert_version "1.10" = [Token.int 1, Token.int 10, Token.int 0] ∧
    Task2.ltStr "1.10" "1.10.1" = true ∧
    UtilsM.create_comparable_version "1.10" = [Token.int 1, Token.int 10] :=
  ⟨convert_version_length, rfl, rfl, rfl⟩

/-- Claim C6: build metadata never affects comparison — `utils`' normalization of any
string equals the normalization of the same string truncated at the first `+`, and
`Version("1.0.0-alpha+001") < Version("1.0.0-beta+exp.sha.5114f85")` holds, driven
solely by the `a < b` tokens the two sides normalize to. -/
theorem claim6_metadata :
    (∀ s : String,
      UtilsM.create_comparable_version s =
        UtilsM.create_comparable_version (UtilsM.stripMetadata s)) ∧
    Task2.convert_version "1.0.0-alpha+001" = Task2.convert_version "1.0.0-alpha" ∧
    Task2.convert_version "1.0.0-beta+exp.sha.5114f85" =
      Task2.convert_version "1.0.0-beta" ∧
    Task2.ltStr "1.0.0-alpha+001" "1.0.0-beta+exp.sha.5114f85" = true ∧
    Task2.convert_version "1.0.0-alpha+001" =
      [Token.int 1, Token.int 0, Token.int 0, Token.str "a"] ∧
    Task2.convert_version "1.0.0-beta+exp.sha.5114f85" =
      [Token.int 1, Token.int 0, Token.int 0, Token.str "b"] := by
  refine ⟨?_, rfl, rfl, rfl, rfl, rfl⟩
  intro s
  simp [UtilsM.create_comparable_version, UtilsM.stripMetadata, takeUntilPlus_idem]

/-- Claim C7: a trailing letter glued to digits is split into its own token by both
normalizers (`"6.42b"` tokenizes with `42` and `"b"` separate), and consequently
`Version("6.42b") < Version("6.42")` holds. -/
theorem claim7_suffix_split :
    Task2.convert_version "6.42b" = [Token.int 6, Token.int 42, Token.str "b"] ∧
    UtilsM.create_comparable_version "6.42b" = [Token.int 6, Token.int 42, Token.str "b"] ∧
    Task2.ltStr "6.42b" "6.42" = true :=
  ⟨rfl, rfl, rfl⟩

/-- Claim C8: `task_2`'s operators raise `TypeError` for every operand that is not a
constructed `Version`; the permissive `main.py` variant additionally accepts a valid
raw version string (and still raises `TypeError` for operands that are neither). -/
theorem claim8_operand_types :
    (∀ (self : List Token) (o : Task2.Operand), (∀ c, o ≠ Task2.Operand.version c) →
      Task2.version_eq self o = .error .typeError ∧
      Task2.version_lt self o = .error .typeError) ∧
    (∀ (self : List Token) (s : String), UtilsM.is_valid s = .ok true →
      UtilsM.version_eq self (Task2.Operand.rawStr s) =
        .ok (decide (self = UtilsM.create_comparable_version s)) ∧
      UtilsM.version_lt self (Task2.Operand.rawStr s) =
        .ok (ltList self (UtilsM.create_comparable_version s))) ∧
    (∀ self : List Token,
      UtilsM.version_eq self Task2.Operand.other = .error .typeError ∧
      UtilsM.version_lt self Task2.Operand.other = .error .typeError) := by
  refine ⟨?_, ?_, fun self => ⟨rfl, rfl⟩⟩
  · intro self o h
    cases o with
    | version c => exact absurd rfl (h c)
    | rawStr s => exact ⟨rfl, rfl⟩
    | other => exact ⟨rfl, rfl⟩
  · intro self s h
    constructor
    · simp [UtilsM.version_eq, UtilsM.get_comparable_version, h]
    · simp [UtilsM.version_lt, UtilsM.get_comparable_version, h]

/-- Witness for C8: a raw string operand is a `TypeError` for `task_2` but accepted
by the permissive variant when valid. -/
theorem claim8_witness :
    Task2.version_lt [] (Task2.Operand.rawStr "1.0.0") = .error .typeError ∧
    Task2.version_eq [] Task2.Operand.other = .error .typeError ∧
    UtilsM.version_lt [] (Task2.Operand.rawStr "1.0.0") =
      .ok (ltList [] (UtilsM.create_comparable_version "1.0.0")) :=
  ⟨(claim8_operand_types.1 [] (Task2.Operand.rawStr "1.0.0") (by intro c; simp)).2,
    (claim8_operand_types.1 [] Task2.Operand.other (by intro c; simp)).1,
    (claim8_operand_types.2.1 [] "1.0.0" rfl).2⟩

/-- Claim C9: in the permissive draft, a string operand failing validation surfaces
`ValueError` (since `is_valid` raises instead of ever returning `False`), not
`TypeError`; the `TypeError` branch of `get_comparable_version` is reachable only for
operands that are neither a `Version` nor a string. -/
theorem claim9_permissive_errors :
    (∀ (s : String) (r : Bool), UtilsM.is_valid s = .ok r → r = true) ∧
    (∀ (self : List Token) (s : String), UtilsM.is_valid s = .error .valueError →
      UtilsM.version_eq self (Task2.Operand.rawStr s) = .error .valueError ∧
      UtilsM.version_lt self (Task2.Operand.rawStr s) = .error .valueError) ∧
    (∀ o : Task2.Operand, UtilsM.get_comparable_version o = .error .typeError →
      o = Task2.Operand.other) := by
  refine ⟨?_, ?_, ?_⟩
  · intro s r h
    rcases is_valid_cases s with h' | h'
    · rw [h'] at h
      injection h with h1
      exact h1.symm
    · rw [h'] at h
      cases h
  · intro self s h
    exact ⟨by simp [UtilsM.version_eq, UtilsM.get_comparable_version, h],
      by simp [UtilsM.version_lt, UtilsM.get_comparable_version, h]⟩
  · intro o h
    cases o with
    | version c => simp [UtilsM.get_comparable_version] at h
    | rawStr s =>
      exfalso
      rcases is_valid_cases s with h' | h'
      · simp [UtilsM.get_comparable_version, h'] at h
      · simp [UtilsM.get_comparable_version, h'] at h
    | other => rfl

/-- Witness for C9 at the invalid string operand `"abc"`. -/
theorem claim9_witness :
    UtilsM.is_valid "abc" = .error .valueError ∧
    UtilsM.version_lt [] (Task2.Operand.rawStr "abc") = .error .valueError :=
  ⟨rfl, (claim9_permissive_errors.2.1 [] "abc" rfl).2⟩

/-- Claim C10: the validation pattern accepts `"1.0.0-rc."` (trailing separator); it
constructs successfully under both validators, its normalized sequence carries a
trailing empty-string token, and it differs from the normalization of `"1.0.0-rc"`
only by that empty-string token. -/
theorem claim10_trailing_separator :
    UtilsM.VERSION_PATTERN.rmatch "1.0.0-rc." = true ∧
    UtilsM.is_valid "1.0.0-rc." = .ok true ∧
    Task2.versionCheckerSet "1.0.0-rc." = .ok "1.0.0-rc." ∧
    UtilsM.create_comparable_version "1.0.0-rc." =
      [Token.int 1, Token.int 0, Token.int 0, Token.str "rc", Token.str ""] ∧
    Task2.convert_version "1.0.0-rc." =
      [Token.int 1, Token.int 0, Token.int 0, Token.str "rc", Token.str ""] ∧
    UtilsM.create_comparable_version "1.0.0-rc" =
      [Token.int 1, Token.int 0, Token.int 0, Token.str "rc"] ∧
    Task2.convert_version "1.0.0-rc" =
      [Token.int 1, Token.int 0, Token.int 0, Token.str "rc"] :=
  ⟨rfl, rfl, rfl, rfl, rfl, rfl, rfl⟩
